import Mathlib

/-!
Verification of the signature-refiner core: the per-pixel
threshold/binarization transform and the crop-rectangle geometry
controller, shallowly embedded from `src/src/App.jsx`.

Pixel channels are naturals (0–255 in well-formed buffers); display
coordinates are rationals, modelling the real-valued canvas coordinate
space.
-/

namespace SignatureRefiner

/-- One RGBA pixel (a 4-tuple of channels), as four consecutive entries
of the flat `ImageData.data` array in the source. -/
structure Pixel where
  r : ℕ
  g : ℕ
  b : ℕ
  a : ℕ
deriving DecidableEq

/-- A pixel buffer: dimensions plus the flat pixel sequence.  The flat
RGBA byte array of length `width*height*4` in the source corresponds to
`data.length = width * height` pixels here. -/
structure PixelBuffer where
  width : ℕ
  height : ℕ
  data : List Pixel
deriving DecidableEq

/-- Structural invariant of a pixel buffer: positive dimensions, the
pixel count matches them, and every channel is a byte. -/
def PixelBuffer.WellFormed (buf : PixelBuffer) : Prop :=
  0 < buf.width ∧ 0 < buf.height ∧ buf.data.length = buf.width * buf.height ∧
    ∀ p ∈ buf.data, p.r ≤ 255 ∧ p.g ≤ 255 ∧ p.b ≤ 255 ∧ p.a ≤ 255

instance (buf : PixelBuffer) : Decidable buf.WellFormed := by
  unfold PixelBuffer.WellFormed; exact inferInstance

/-- The two numeric parameters of the thresholding engine
(`luminanceThreshold` and `alphaThreshold` state in the source). -/
structure ThresholdParams where
  luminanceThreshold : ℤ
  alphaCutoff : ℤ
deriving DecidableEq

/-- Perceived brightness, `0.299*R + 0.587*G + 0.114*B`
(`App.jsx` line 197). -/
def luminance (p : Pixel) : ℚ :=
  0.299 * p.r + 0.587 * p.g + 0.114 * p.b

/-- The background test of the pixel loop (`App.jsx` line 202):
`luminance > luminanceThreshold || alpha < alphaThreshold`. -/
def isBackgroundPixel (params : ThresholdParams) (p : Pixel) : Prop :=
  luminance p > (params.luminanceThreshold : ℚ) ∨ (p.a : ℤ) < params.alphaCutoff

instance (params : ThresholdParams) (p : Pixel) :
    Decidable (isBackgroundPixel params p) := by
  unfold isBackgroundPixel; exact inferInstance

/-- The body of the pixel loop (`App.jsx` lines 199–210): a background
pixel gets `alpha := 0` (R, G, B untouched); any other pixel becomes
pure opaque black. -/
def thresholdPixel (params : ThresholdParams) (p : Pixel) : Pixel :=
  if isBackgroundPixel params p then
    { p with a := 0 }
  else
    ⟨0, 0, 0, 255⟩

/-- The thresholding engine: the per-pixel loop of `processImage`
(`App.jsx` lines 189–211) applied to a whole buffer.  Each pixel is
processed independently, so the loop is a map. -/
def threshold (buf : PixelBuffer) (params : ThresholdParams) : PixelBuffer :=
  ⟨buf.width, buf.height, buf.data.map (thresholdPixel params)⟩

/-! ### Crop geometry -/

/-- `HANDLE_SIZE` constant (`App.jsx` line 38). -/
def HANDLE_SIZE : ℚ := 12

/-- `isInsideHandle` (`App.jsx` lines 64–69): square hit-zone of
half-width `HANDLE_SIZE/2` centred on the handle, boundary inclusive. -/
def isInsideHandle (mouseX mouseY handleX handleY : ℚ) : Prop :=
  mouseX ≥ handleX - HANDLE_SIZE / 2 ∧ mouseX ≤ handleX + HANDLE_SIZE / 2 ∧
    mouseY ≥ handleY - HANDLE_SIZE / 2 ∧ mouseY ≤ handleY + HANDLE_SIZE / 2

instance (mouseX mouseY handleX handleY : ℚ) :
    Decidable (isInsideHandle mouseX mouseY handleX handleY) := by
  unfold isInsideHandle; exact inferInstance

/-- A crop rectangle in display coordinates (`crop` state). -/
structure CropRect where
  x : ℚ
  y : ℚ
  width : ℚ
  height : ℚ
deriving DecidableEq

/-- `normalizeCrop` (`App.jsx` lines 78–89): flips a negative width
(resp. height) by shifting `x` (resp. `y`) and taking the absolute
value. -/
def normalizeCrop (crop : CropRect) : CropRect :=
  let c1 : CropRect :=
    if crop.width < 0 then
      ⟨crop.x + crop.width, crop.y, |crop.width|, crop.height⟩
    else crop
  if c1.height < 0 then
    ⟨c1.x, c1.y + c1.height, c1.width, |c1.height|⟩
  else c1

/-- The geometric footprint of a (possibly negative-width/height)
rectangle: the set of points between its two corners, following the
spec's notion of "set of covered points". -/
def coversPoint (c : CropRect) (px py : ℚ) : Prop :=
  min c.x (c.x + c.width) ≤ px ∧ px ≤ max c.x (c.x + c.width) ∧
    min c.y (c.y + c.height) ≤ py ∧ py ≤ max c.y (c.y + c.height)

/-- The drag modes set by `handleCanvasMouseDown`
(`'move'`, `'draw'`, `'nw'`, `'ne'`, `'sw'`, `'se'`). -/
inductive DragMode where
  | move
  | draw
  | nw
  | ne
  | sw
  | se
deriving DecidableEq

/-- `handleCanvasMouseDown` (`App.jsx` lines 326–352): classifies the
pointer against the four corner handles in order NW, NE, SW, SE, then
the strict interior (move), else starts drawing a new rectangle.
Returns the drag mode together with the updated `dragOffset`,
`startPoint` and `crop` states (unchanged when the branch does not set
them). -/
def beginDrag (x y : ℚ) (crop : CropRect) (dragOffset startPoint : ℚ × ℚ) :
    DragMode × (ℚ × ℚ) × (ℚ × ℚ) × CropRect :=
  if isInsideHandle x y crop.x crop.y then
    (.nw, dragOffset, startPoint, crop)
  else if isInsideHandle x y (crop.x + crop.width) crop.y then
    (.ne, dragOffset, startPoint, crop)
  else if isInsideHandle x y crop.x (crop.y + crop.height) then
    (.sw, dragOffset, startPoint, crop)
  else if isInsideHandle x y (crop.x + crop.width) (crop.y + crop.height) then
    (.se, dragOffset, startPoint, crop)
  else if crop.x < x ∧ x < crop.x + crop.width ∧ crop.y < y ∧ y < crop.y + crop.height then
    (.move, (x - crop.x, y - crop.y), startPoint, crop)
  else
    (.draw, dragOffset, (x, y), ⟨x, y, 0, 0⟩)

/-- The `switch (dragMode)` of `handleCanvasMouseMove`
(`App.jsx` lines 389–422): the raw, possibly negative-size rectangle
before normalization and clamping. -/
def dragRaw (currentX currentY : ℚ) (mode : DragMode)
    (dragOffset startPoint : ℚ × ℚ) (prev : CropRect) : CropRect :=
  match mode with
  | .move => ⟨currentX - dragOffset.1, currentY - dragOffset.2, prev.width, prev.height⟩
  | .draw => ⟨startPoint.1, startPoint.2, currentX - startPoint.1, currentY - startPoint.2⟩
  | .nw => ⟨currentX, currentY, prev.width + (prev.x - currentX), prev.height + (prev.y - currentY)⟩
  | .ne => ⟨prev.x, currentY, currentX - prev.x, prev.height + (prev.y - currentY)⟩
  | .sw => ⟨currentX, prev.y, prev.width + (prev.x - currentX), currentY - prev.y⟩
  | .se => ⟨prev.x, prev.y, currentX - prev.x, currentY - prev.y⟩

/-- The boundary checks of `handleCanvasMouseMove`
(`App.jsx` lines 427–441): clamp the origin into the canvas, then
shrink the size if the far edge still overshoots. -/
def clampCrop (canvasWidth canvasHeight : ℚ) (n : CropRect) : CropRect :=
  let finalX := max 0 (min n.x (canvasWidth - n.width))
  let finalY := max 0 (min n.y (canvasHeight - n.height))
  let finalWidth := if finalX + n.width > canvasWidth then canvasWidth - finalX else n.width
  let finalHeight := if finalY + n.height > canvasHeight then canvasHeight - finalY else n.height
  ⟨finalX, finalY, finalWidth, finalHeight⟩

/-- The crop update of `handleCanvasMouseMove` (`App.jsx` lines
383–443): raw update by drag mode, then `normalizeCrop`, then the
boundary checks. -/
def updateDrag (currentX currentY : ℚ) (mode : DragMode)
    (dragOffset startPoint : ℚ × ℚ) (canvasWidth canvasHeight : ℚ)
    (prev : CropRect) : CropRect :=
  clampCrop canvasWidth canvasHeight
    (normalizeCrop (dragRaw currentX currentY mode dragOffset startPoint prev))

/-- The one user-facing error of the crop controller
(`InvalidCropError` in the spec's taxonomy). -/
inductive CropError where
  | invalidCrop
deriving DecidableEq

/-- `handleApplyCrop` (`App.jsx` lines 459–503) at the level of its
observable state: given the current processed image (present iff a
processed image URL and canvas exist) and crop rectangle, either
reports the error and leaves both unchanged, or extracts the cropped
image (extraction itself is the external canvas `drawImage` primitive,
passed in as `extract`) and resets the crop to the zero rectangle.
Returns (error?, processed image, crop). -/
def handleApplyCrop {α : Type} (extract : CropRect → α → α)
    (processedImage : Option α) (crop : CropRect) :
    Option CropError × Option α × CropRect :=
  if processedImage.isNone ∨ crop.width = 0 ∨ crop.height = 0 then
    (some .invalidCrop, processedImage, crop)
  else
    (none, processedImage.map (extract crop), ⟨0, 0, 0, 0⟩)

/-! ### Lemmas about the thresholding engine -/

lemma luminance_inkPixel : luminance ⟨0, 0, 0, 255⟩ = 0 := by
  simp [luminance]

lemma thresholdPixel_of_background {params : ThresholdParams} {p : Pixel}
    (h : isBackgroundPixel params p) : thresholdPixel params p = { p with a := 0 } :=
  if_pos h

lemma thresholdPixel_of_ink {params : ThresholdParams} {p : Pixel}
    (h : ¬ isBackgroundPixel params p) : thresholdPixel params p = ⟨0, 0, 0, 255⟩ :=
  if_neg h

lemma isBackgroundPixel_set_alpha_zero {params : ThresholdParams} {p : Pixel}
    (hb : isBackgroundPixel params p) : isBackgroundPixel params { p with a := 0 } := by
  rcases hb with h | h
  · exact Or.inl h
  · right
    have h0 : (0 : ℤ) ≤ (p.a : ℤ) := Int.natCast_nonneg _
    show ((0 : ℕ) : ℤ) < params.alphaCutoff
    omega

lemma not_isBackgroundPixel_ink {params : ThresholdParams}
    (h0 : 0 ≤ params.luminanceThreshold) (h255 : params.alphaCutoff ≤ 255) :
    ¬ isBackgroundPixel params ⟨0, 0, 0, 255⟩ := by
  rintro (h | h)
  · rw [luminance_inkPixel] at h
    have hq : (0 : ℚ) ≤ (params.luminanceThreshold : ℚ) := by exact_mod_cast h0
    linarith
  · have h' : ((255 : ℕ) : ℤ) < params.alphaCutoff := h
    omega

lemma thresholdPixel_idem {params : ThresholdParams}
    (h0 : 0 ≤ params.luminanceThreshold) (h255 : params.alphaCutoff ≤ 255) (p : Pixel) :
    thresholdPixel params (thresholdPixel params p) = thresholdPixel params p := by
  by_cases hb : isBackgroundPixel params p
  · rw [thresholdPixel_of_background hb,
      thresholdPixel_of_background (isBackgroundPixel_set_alpha_zero hb)]
  · rw [thresholdPixel_of_ink hb, thresholdPixel_of_ink (not_isBackgroundPixel_ink h0 h255)]

lemma thresholdPixel_eq_ink_iff {params : ThresholdParams} {p : Pixel} :
    thresholdPixel params p = ⟨0, 0, 0, 255⟩ ↔ ¬ isBackgroundPixel params p := by
  constructor
  · intro h hb
    rw [thresholdPixel_of_background hb] at h
    have ha : ({ p with a := 0 } : Pixel).a = (⟨0, 0, 0, 255⟩ : Pixel).a := by rw [h]
    simp at ha
  · exact thresholdPixel_of_ink

/-! ### Claims C1–C4: the thresholding engine -/

/-- Claim C1 (counterexample): on the spec's own 4×1 example with
`luminanceThreshold = 200`, `alphaCutoff = 50`, the second output pixel
is `(250,250,250,0)`: the code clears only the alpha byte of a
background pixel and leaves its R, G, B bytes unchanged, so the output
pixel is in neither of the two claimed states `{0,0,0,0}` and
`{0,0,0,255}`. -/
theorem threshold_spec_example_rgb_not_zeroed :
    PixelBuffer.WellFormed
      ⟨4, 1, [⟨10, 10, 10, 255⟩, ⟨250, 250, 250, 255⟩, ⟨0, 0, 0, 10⟩, ⟨0, 0, 0, 200⟩]⟩ ∧
    threshold ⟨4, 1, [⟨10, 10, 10, 255⟩, ⟨250, 250, 250, 255⟩, ⟨0, 0, 0, 10⟩, ⟨0, 0, 0, 200⟩]⟩
        ⟨200, 50⟩ =
      ⟨4, 1, [⟨0, 0, 0, 255⟩, ⟨250, 250, 250, 0⟩, ⟨0, 0, 0, 0⟩, ⟨0, 0, 0, 255⟩]⟩ ∧
    (⟨250, 250, 250, 0⟩ : Pixel) ≠ ⟨0, 0, 0, 0⟩ ∧
    (⟨250, 250, 250, 0⟩ : Pixel) ≠ ⟨0, 0, 0, 255⟩ := by
  refine ⟨by decide, ?_, by decide, by decide⟩
  norm_num [threshold, thresholdPixel, isBackgroundPixel, luminance]

/-- Claim C1 (amended): for every well-formed buffer and any params,
every output pixel of `threshold` is either the ink state
`{0,0,0,255}` or a background pixel with alpha 0 whose R, G, B bytes
are those of an input pixel (the code clears only alpha and does not
zero the RGB bytes of background pixels). -/
theorem threshold_output_ink_or_transparent
    (params : ThresholdParams) (buf : PixelBuffer) (hwf : buf.WellFormed) :
    ∀ q ∈ (threshold buf params).data,
      q = ⟨0, 0, 0, 255⟩ ∨ (q.a = 0 ∧ ∃ p ∈ buf.data, q = ⟨p.r, p.g, p.b, 0⟩) := by
  intro q hq
  simp only [threshold, List.mem_map] at hq
  obtain ⟨p, hp, rfl⟩ := hq
  by_cases hb : isBackgroundPixel params p
  · right
    rw [thresholdPixel_of_background hb]
    exact ⟨rfl, p, hp, rfl⟩
  · left
    exact thresholdPixel_of_ink hb

/-- Witness for the amended C1 theorem at a concrete 1×1 buffer. -/
theorem threshold_output_ink_or_transparent_witness :
    (⟨0, 0, 0, 255⟩ : Pixel) = ⟨0, 0, 0, 255⟩ ∨
      ((⟨0, 0, 0, 255⟩ : Pixel).a = 0 ∧
        ∃ p ∈ (PixelBuffer.mk 1 1 [⟨10, 10, 10, 255⟩]).data,
          (⟨0, 0, 0, 255⟩ : Pixel) = ⟨p.r, p.g, p.b, 0⟩) :=
  threshold_output_ink_or_transparent ⟨200, 50⟩ ⟨1, 1, [⟨10, 10, 10, 255⟩]⟩ (by decide)
    ⟨0, 0, 0, 255⟩ (by norm_num [threshold, thresholdPixel, isBackgroundPixel, luminance])

/-- Claim C2: after thresholding, every pixel's alpha is 0 or 255, and
a pixel with alpha 255 is pure black. -/
theorem threshold_binarization_invariant
    (params : ThresholdParams) (buf : PixelBuffer) (hwf : buf.WellFormed) :
    ∀ q ∈ (threshold buf params).data,
      (q.a = 0 ∨ q.a = 255) ∧ (q.a = 255 → q.r = 0 ∧ q.g = 0 ∧ q.b = 0) := by
  intro q hq
  simp only [threshold, List.mem_map] at hq
  obtain ⟨p, hp, rfl⟩ := hq
  by_cases hb : isBackgroundPixel params p
  · rw [thresholdPixel_of_background hb]
    exact ⟨Or.inl rfl, fun h => absurd h (by simp)⟩
  · rw [thresholdPixel_of_ink hb]
    exact ⟨Or.inr rfl, fun _ => ⟨rfl, rfl, rfl⟩⟩

/-- Witness for the C2 theorem at a concrete 1×1 buffer. -/
theorem threshold_binarization_invariant_witness :
    ((⟨0, 0, 0, 255⟩ : Pixel).a = 0 ∨ (⟨0, 0, 0, 255⟩ : Pixel).a = 255) ∧
      ((⟨0, 0, 0, 255⟩ : Pixel).a = 255 →
        (⟨0, 0, 0, 255⟩ : Pixel).r = 0 ∧ (⟨0, 0, 0, 255⟩ : Pixel).g = 0 ∧
          (⟨0, 0, 0, 255⟩ : Pixel).b = 0) :=
  threshold_binarization_invariant ⟨200, 50⟩ ⟨1, 1, [⟨10, 10, 10, 255⟩]⟩ (by decide)
    ⟨0, 0, 0, 255⟩ (by norm_num [threshold, thresholdPixel, isBackgroundPixel, luminance])

/-- Claim C3: `threshold` is idempotent for a well-formed buffer and
params with both fields in [0,255]: ink output has luminance 0 and
alpha 255, so it passes both gates again; background output keeps
alpha 0, so it is classified background again and is unchanged. -/
theorem threshold_idempotent (buf : PixelBuffer) (params : ThresholdParams)
    (hwf : buf.WellFormed)
    (h1 : 0 ≤ params.luminanceThreshold) (h2 : params.luminanceThreshold ≤ 255)
    (h3 : 0 ≤ params.alphaCutoff) (h4 : params.alphaCutoff ≤ 255) :
    threshold (threshold buf params) params = threshold buf params := by
  simp only [threshold, List.map_map]
  congr 1
  refine List.map_congr_left fun p _ => ?_
  exact thresholdPixel_idem h1 h4 p

/-- Witness for the C3 theorem at a concrete 1×1 buffer. -/
theorem threshold_idempotent_witness :
    threshold (threshold ⟨1, 1, [⟨10, 10, 10, 255⟩]⟩ ⟨200, 50⟩) ⟨200, 50⟩ =
      threshold ⟨1, 1, [⟨10, 10, 10, 255⟩]⟩ ⟨200, 50⟩ :=
  threshold_idempotent ⟨1, 1, [⟨10, 10, 10, 255⟩]⟩ ⟨200, 50⟩ (by decide)
    (by decide) (by decide) (by decide) (by decide)

/-- Claim C4 (counterexample): raising `luminanceThreshold` from 100
to 200 with `alphaCutoff = 0` converts the pixel `(150,150,150,255)` —
classified as background purely by the luminance test at threshold 100
(its alpha 255 passes the alpha gate) — into ink.  This refutes the
claim's second conjunct, that a background-by-luminance pixel is never
converted back to ink by raising the threshold. -/
theorem threshold_raise_luminance_counterexample :
    (100 : ℤ) ≤ 200 ∧
    isBackgroundPixel ⟨100, 0⟩ ⟨150, 150, 150, 255⟩ ∧
    luminance ⟨150, 150, 150, 255⟩ > ((100 : ℤ) : ℚ) ∧
    ¬ (((⟨150, 150, 150, 255⟩ : Pixel).a : ℤ) < (0 : ℤ)) ∧
    thresholdPixel ⟨100, 0⟩ ⟨150, 150, 150, 255⟩ ≠ ⟨0, 0, 0, 255⟩ ∧
    thresholdPixel ⟨200, 0⟩ ⟨150, 150, 150, 255⟩ = ⟨0, 0, 0, 255⟩ := by
  norm_num [isBackgroundPixel, luminance, thresholdPixel]

/-- Claim C4 (amended): for a fixed input buffer and fixed
`alphaCutoff`, raising `luminanceThreshold` never converts an ink
pixel into background — the set of background pixels shrinks or stays
equal as the threshold rises (a pixel background purely by luminance
CAN become ink as the threshold rises past its luminance; the reverse
never happens). -/
theorem threshold_luminance_monotone (buf : PixelBuffer) (alphaCutoff T1 T2 : ℤ)
    (h12 : T1 ≤ T2) :
    ∀ p ∈ buf.data,
      (thresholdPixel ⟨T1, alphaCutoff⟩ p = ⟨0, 0, 0, 255⟩ →
        thresholdPixel ⟨T2, alphaCutoff⟩ p = ⟨0, 0, 0, 255⟩) ∧
      (isBackgroundPixel ⟨T2, alphaCutoff⟩ p → isBackgroundPixel ⟨T1, alphaCutoff⟩ p) := by
  intro p _
  have hmono : isBackgroundPixel ⟨T2, alphaCutoff⟩ p → isBackgroundPixel ⟨T1, alphaCutoff⟩ p := by
    rintro (h | h)
    · left
      have hq : ((T1 : ℚ)) ≤ (T2 : ℚ) := by exact_mod_cast h12
      exact lt_of_le_of_lt hq h
    · exact Or.inr h
  refine ⟨?_, hmono⟩
  intro hink
  rw [thresholdPixel_eq_ink_iff] at hink ⊢
  exact fun hb => hink (hmono hb)

/-- Witness for the amended C4 theorem at a concrete pixel. -/
theorem threshold_luminance_monotone_witness :
    (thresholdPixel ⟨100, 50⟩ ⟨0, 0, 0, 255⟩ = ⟨0, 0, 0, 255⟩ →
      thresholdPixel ⟨200, 50⟩ ⟨0, 0, 0, 255⟩ = ⟨0, 0, 0, 255⟩) ∧
    (isBackgroundPixel ⟨200, 50⟩ (⟨0, 0, 0, 255⟩ : Pixel) →
      isBackgroundPixel ⟨100, 50⟩ (⟨0, 0, 0, 255⟩ : Pixel)) :=
  threshold_luminance_monotone ⟨1, 1, [⟨0, 0, 0, 255⟩]⟩ 50 100 200 (by decide)
    ⟨0, 0, 0, 255⟩ (by simp)

/-! ### Lemmas about the crop geometry -/

lemma normalizeCrop_of_nonneg (c : CropRect) (hw : 0 ≤ c.width) (hh : 0 ≤ c.height) :
    normalizeCrop c = c := by
  simp only [normalizeCrop]
  rw [if_neg (not_lt.2 hw), if_neg (not_lt.2 hh)]

lemma normalizeCrop_of_neg_width (c : CropRect) (hw : c.width < 0) (hh : 0 ≤ c.height) :
    normalizeCrop c = ⟨c.x + c.width, c.y, -c.width, c.height⟩ := by
  simp only [normalizeCrop]
  rw [if_pos hw,
    if_neg (show ¬ (⟨c.x + c.width, c.y, |c.width|, c.height⟩ : CropRect).height < 0 from
      not_lt.2 hh)]
  rw [abs_of_neg hw]

lemma normalizeCrop_of_neg_height (c : CropRect) (hw : 0 ≤ c.width) (hh : c.height < 0) :
    normalizeCrop c = ⟨c.x, c.y + c.height, c.width, -c.height⟩ := by
  simp only [normalizeCrop]
  rw [if_neg (not_lt.2 hw), if_pos hh, abs_of_neg hh]

lemma normalizeCrop_of_neg_both (c : CropRect) (hw : c.width < 0) (hh : c.height < 0) :
    normalizeCrop c = ⟨c.x + c.width, c.y + c.height, -c.width, -c.height⟩ := by
  simp only [normalizeCrop]
  rw [if_pos hw,
    if_pos (show (⟨c.x + c.width, c.y, |c.width|, c.height⟩ : CropRect).height < 0 from hh)]
  rw [abs_of_neg hw, abs_of_neg hh]

lemma normalizeCrop_nonneg (c : CropRect) :
    0 ≤ (normalizeCrop c).width ∧ 0 ≤ (normalizeCrop c).height := by
  rcases le_or_lt 0 c.width with hw | hw <;> rcases le_or_lt 0 c.height with hh | hh
  · rw [normalizeCrop_of_nonneg c hw hh]
    exact ⟨hw, hh⟩
  · rw [normalizeCrop_of_neg_height c hw hh]
    refine ⟨hw, ?_⟩
    show (0 : ℚ) ≤ -c.height
    linarith
  · rw [normalizeCrop_of_neg_width c hw hh]
    refine ⟨?_, hh⟩
    show (0 : ℚ) ≤ -c.width
    linarith
  · rw [normalizeCrop_of_neg_both c hw hh]
    constructor
    · show (0 : ℚ) ≤ -c.width
      linarith
    · show (0 : ℚ) ≤ -c.height
      linarith

lemma clampCrop_contained (canvasWidth canvasHeight : ℚ) (n : CropRect)
    (hW : 0 ≤ canvasWidth) (hH : 0 ≤ canvasHeight)
    (hw : 0 ≤ n.width) (hh : 0 ≤ n.height) :
    0 ≤ (clampCrop canvasWidth canvasHeight n).x ∧
    0 ≤ (clampCrop canvasWidth canvasHeight n).y ∧
    (clampCrop canvasWidth canvasHeight n).x + (clampCrop canvasWidth canvasHeight n).width ≤
      canvasWidth ∧
    (clampCrop canvasWidth canvasHeight n).y + (clampCrop canvasWidth canvasHeight n).height ≤
      canvasHeight ∧
    0 ≤ (clampCrop canvasWidth canvasHeight n).width ∧
    0 ≤ (clampCrop canvasWidth canvasHeight n).height := by
  have hxW : max 0 (min n.x (canvasWidth - n.width)) ≤ canvasWidth :=
    max_le hW (le_trans (min_le_right _ _) (by linarith))
  have hyH : max 0 (min n.y (canvasHeight - n.height)) ≤ canvasHeight :=
    max_le hH (le_trans (min_le_right _ _) (by linarith))
  have hx0 : (0 : ℚ) ≤ max 0 (min n.x (canvasWidth - n.width)) := le_max_left _ _
  have hy0 : (0 : ℚ) ≤ max 0 (min n.y (canvasHeight - n.height)) := le_max_left _ _
  simp only [clampCrop]
  split_ifs with h1 h2 h2 <;>
    exact ⟨hx0, hy0, by linarith, by linarith, by linarith, by linarith⟩

/-! ### Claims C5, C7, C9: normalization and clamping -/

/-- Claim C5: every rectangle produced by `updateDrag` — any drag
mode, pointer position and previous rectangle — is fully contained in
the canvas: `0 ≤ x`, `0 ≤ y`, `x + width ≤ canvasWidth`,
`y + height ≤ canvasHeight`, with non-negative width and height. -/
theorem updateDrag_contained (currentX currentY : ℚ) (mode : DragMode)
    (dragOffset startPoint : ℚ × ℚ) (canvasWidth canvasHeight : ℚ) (prev : CropRect)
    (hW : 0 ≤ canvasWidth) (hH : 0 ≤ canvasHeight) :
    0 ≤ (updateDrag currentX currentY mode dragOffset startPoint canvasWidth canvasHeight prev).x ∧
    0 ≤ (updateDrag currentX currentY mode dragOffset startPoint canvasWidth canvasHeight prev).y ∧
    (updateDrag currentX currentY mode dragOffset startPoint canvasWidth canvasHeight prev).x +
        (updateDrag currentX currentY mode dragOffset startPoint canvasWidth canvasHeight
          prev).width ≤ canvasWidth ∧
    (updateDrag currentX currentY mode dragOffset startPoint canvasWidth canvasHeight prev).y +
        (updateDrag currentX currentY mode dragOffset startPoint canvasWidth canvasHeight
          prev).height ≤ canvasHeight ∧
    0 ≤ (updateDrag currentX currentY mode dragOffset startPoint canvasWidth canvasHeight
          prev).width ∧
    0 ≤ (updateDrag currentX currentY mode dragOffset startPoint canvasWidth canvasHeight
          prev).height :=
  clampCrop_contained canvasWidth canvasHeight _ hW hH
    (normalizeCrop_nonneg _).1 (normalizeCrop_nonneg _).2

/-- Witness for the C5 theorem: a draw drag that overshoots a 10×10
canvas on both axes. -/
theorem updateDrag_contained_witness :
    0 ≤ (updateDrag 20 20 .draw (0, 0) (0, 0) 10 10 ⟨0, 0, 0, 0⟩).x ∧
    0 ≤ (updateDrag 20 20 .draw (0, 0) (0, 0) 10 10 ⟨0, 0, 0, 0⟩).y ∧
    (updateDrag 20 20 .draw (0, 0) (0, 0) 10 10 ⟨0, 0, 0, 0⟩).x +
        (updateDrag 20 20 .draw (0, 0) (0, 0) 10 10 ⟨0, 0, 0, 0⟩).width ≤ 10 ∧
    (updateDrag 20 20 .draw (0, 0) (0, 0) 10 10 ⟨0, 0, 0, 0⟩).y +
        (updateDrag 20 20 .draw (0, 0) (0, 0) 10 10 ⟨0, 0, 0, 0⟩).height ≤ 10 ∧
    0 ≤ (updateDrag 20 20 .draw (0, 0) (0, 0) 10 10 ⟨0, 0, 0, 0⟩).width ∧
    0 ≤ (updateDrag 20 20 .draw (0, 0) (0, 0) 10 10 ⟨0, 0, 0, 0⟩).height :=
  updateDrag_contained 20 20 .draw (0, 0) (0, 0) 10 10 ⟨0, 0, 0, 0⟩
    (by norm_num) (by norm_num)

/-- Claim C7: `normalizeCrop` returns a rectangle with non-negative
width and height covering exactly the same set of points as its
input. -/
theorem normalizeCrop_footprint (c : CropRect) :
    0 ≤ (normalizeCrop c).width ∧ 0 ≤ (normalizeCrop c).height ∧
      ∀ px py : ℚ, coversPoint (normalizeCrop c) px py ↔ coversPoint c px py := by
  refine ⟨(normalizeCrop_nonneg c).1, (normalizeCrop_nonneg c).2, fun px py => ?_⟩
  rcases le_or_lt 0 c.width with hw | hw <;> rcases le_or_lt 0 c.height with hh | hh
  · rw [normalizeCrop_of_nonneg c hw hh]
  · rw [normalizeCrop_of_neg_height c hw hh]
    simp only [coversPoint]
    rw [show c.y + c.height + -c.height = c.y from by ring, min_comm (c.y + c.height) c.y,
      max_comm (c.y + c.height) c.y]
  · rw [normalizeCrop_of_neg_width c hw hh]
    simp only [coversPoint]
    rw [show c.x + c.width + -c.width = c.x from by ring, min_comm (c.x + c.width) c.x,
      max_comm (c.x + c.width) c.x]
  · rw [normalizeCrop_of_neg_both c hw hh]
    simp only [coversPoint]
    rw [show c.x + c.width + -c.width = c.x from by ring, min_comm (c.x + c.width) c.x,
      max_comm (c.x + c.width) c.x,
      show c.y + c.height + -c.height = c.y from by ring, min_comm (c.y + c.height) c.y,
      max_comm (c.y + c.height) c.y]

/-- Witness for the C7 theorem at a concrete degenerate rectangle. -/
theorem normalizeCrop_footprint_witness :
    0 ≤ (normalizeCrop ⟨3, 3, -2, -1⟩).width ∧ 0 ≤ (normalizeCrop ⟨3, 3, -2, -1⟩).height ∧
      (coversPoint (normalizeCrop ⟨3, 3, -2, -1⟩) 2 3 ↔ coversPoint ⟨3, 3, -2, -1⟩ 2 3) :=
  ⟨(normalizeCrop_footprint ⟨3, 3, -2, -1⟩).1, (normalizeCrop_footprint ⟨3, 3, -2, -1⟩).2.1,
    (normalizeCrop_footprint ⟨3, 3, -2, -1⟩).2.2 2 3⟩

/-- Claim C9: in move mode, for a session rectangle already fitting
the canvas, `updateDrag` keeps the size unchanged and clamps the new
origin `point − dragOffset` into the canvas. -/
theorem updateDrag_move_preserves_size (currentX currentY : ℚ)
    (dragOffset startPoint : ℚ × ℚ) (canvasWidth canvasHeight : ℚ) (prev : CropRect)
    (hw0 : 0 ≤ prev.width) (hwW : prev.width ≤ canvasWidth)
    (hh0 : 0 ≤ prev.height) (hhH : prev.height ≤ canvasHeight) :
    updateDrag currentX currentY .move dragOffset startPoint canvasWidth canvasHeight prev =
      ⟨max 0 (min (currentX - dragOffset.1) (canvasWidth - prev.width)),
        max 0 (min (currentY - dragOffset.2) (canvasHeight - prev.height)),
        prev.width, prev.height⟩ := by
  have hraw : dragRaw currentX currentY .move dragOffset startPoint prev =
      ⟨currentX - dragOffset.1, currentY - dragOffset.2, prev.width, prev.height⟩ := rfl
  have hfx : max 0 (min (currentX - dragOffset.1) (canvasWidth - prev.width)) ≤
      canvasWidth - prev.width :=
    max_le (by linarith) (min_le_right _ _)
  have hfy : max 0 (min (currentY - dragOffset.2) (canvasHeight - prev.height)) ≤
      canvasHeight - prev.height :=
    max_le (by linarith) (min_le_right _ _)
  rw [updateDrag, hraw,
    normalizeCrop_of_nonneg
      ⟨currentX - dragOffset.1, currentY - dragOffset.2, prev.width, prev.height⟩ hw0 hh0]
  simp only [clampCrop]
  rw [if_neg (not_lt.2 (by linarith : max 0 (min (currentX - dragOffset.1)
        (canvasWidth - prev.width)) + prev.width ≤ canvasWidth)),
    if_neg (not_lt.2 (by linarith : max 0 (min (currentY - dragOffset.2)
        (canvasHeight - prev.height)) + prev.height ≤ canvasHeight))]

/-- Witness for the C9 theorem at a concrete move drag. -/
theorem updateDrag_move_preserves_size_witness :
    updateDrag 5 5 .move (1, 1) (0, 0) 10 10 ⟨2, 2, 3, 3⟩ =
      ⟨max 0 (min ((5 : ℚ) - (1, (1 : ℚ)).1) (10 - (⟨2, 2, 3, 3⟩ : CropRect).width)),
        max 0 (min ((5 : ℚ) - (1, (1 : ℚ)).2) (10 - (⟨2, 2, 3, 3⟩ : CropRect).height)),
        (⟨2, 2, 3, 3⟩ : CropRect).width, (⟨2, 2, 3, 3⟩ : CropRect).height⟩ :=
  updateDrag_move_preserves_size 5 5 (1, 1) (0, 0) 10 10 ⟨2, 2, 3, 3⟩
    (by norm_num) (by norm_num) (by norm_num) (by norm_num)

/-! ### Claims C6, C10: pointer classification -/

/-- Claim C6: `beginDrag` classifies the pointer against the four
corner handles in priority order NW, NE, SW, SE; failing all handles,
a point strictly inside the rectangle starts a move (recording
offset = point − origin); anything else starts a draw, recording the
start point and resetting the rectangle to a zero-size rectangle at
the point.  The final conjunct is the spec's example: point (5,5) on
rect {0,0,10,10} is classified NW even though it also lies inside the
NE hit-zone and the interior. -/
theorem beginDrag_classification (x y : ℚ) (crop : CropRect) (dragOffset startPoint : ℚ × ℚ) :
    (isInsideHandle x y crop.x crop.y →
      beginDrag x y crop dragOffset startPoint = (.nw, dragOffset, startPoint, crop)) ∧
    (¬ isInsideHandle x y crop.x crop.y →
      isInsideHandle x y (crop.x + crop.width) crop.y →
      beginDrag x y crop dragOffset startPoint = (.ne, dragOffset, startPoint, crop)) ∧
    (¬ isInsideHandle x y crop.x crop.y →
      ¬ isInsideHandle x y (crop.x + crop.width) crop.y →
      isInsideHandle x y crop.x (crop.y + crop.height) →
      beginDrag x y crop dragOffset startPoint = (.sw, dragOffset, startPoint, crop)) ∧
    (¬ isInsideHandle x y crop.x crop.y →
      ¬ isInsideHandle x y (crop.x + crop.width) crop.y →
      ¬ isInsideHandle x y crop.x (crop.y + crop.height) →
      isInsideHandle x y (crop.x + crop.width) (crop.y + crop.height) →
      beginDrag x y crop dragOffset startPoint = (.se, dragOffset, startPoint, crop)) ∧
    (¬ isInsideHandle x y crop.x crop.y →
      ¬ isInsideHandle x y (crop.x + crop.width) crop.y →
      ¬ isInsideHandle x y crop.x (crop.y + crop.height) →
      ¬ isInsideHandle x y (crop.x + crop.width) (crop.y + crop.height) →
      (crop.x < x ∧ x < crop.x + crop.width ∧ crop.y < y ∧ y < crop.y + crop.height) →
      beginDrag x y crop dragOffset startPoint =
        (.move, (x - crop.x, y - crop.y), startPoint, crop)) ∧
    (¬ isInsideHandle x y crop.x crop.y →
      ¬ isInsideHandle x y (crop.x + crop.width) crop.y →
      ¬ isInsideHandle x y crop.x (crop.y + crop.height) →
      ¬ isInsideHandle x y (crop.x + crop.width) (crop.y + crop.height) →
      ¬ (crop.x < x ∧ x < crop.x + crop.width ∧ crop.y < y ∧ y < crop.y + crop.height) →
      beginDrag x y crop dragOffset startPoint =
        (.draw, dragOffset, (x, y), ⟨x, y, 0, 0⟩)) ∧
    beginDrag 5 5 ⟨0, 0, 10, 10⟩ dragOffset startPoint =
      (.nw, dragOffset, startPoint, ⟨0, 0, 10, 10⟩) := by
  refine ⟨?_, ?_, ?_, ?_, ?_, ?_, ?_⟩
  · intro h1
    unfold beginDrag
    rw [if_pos h1]
  · intro h1 h2
    unfold beginDrag
    rw [if_neg h1, if_pos h2]
  · intro h1 h2 h3
    unfold beginDrag
    rw [if_neg h1, if_neg h2, if_pos h3]
  · intro h1 h2 h3 h4
    unfold beginDrag
    rw [if_neg h1, if_neg h2, if_neg h3, if_pos h4]
  · intro h1 h2 h3 h4 h5
    unfold beginDrag
    rw [if_neg h1, if_neg h2, if_neg h3, if_neg h4, if_pos h5]
  · intro h1 h2 h3 h4 h5
    unfold beginDrag
    rw [if_neg h1, if_neg h2, if_neg h3, if_neg h4, if_neg h5]
  · unfold beginDrag
    rw [if_pos (show isInsideHandle 5 5 (⟨0, 0, 10, 10⟩ : CropRect).x
        (⟨0, 0, 10, 10⟩ : CropRect).y by
      unfold isInsideHandle HANDLE_SIZE
      norm_num)]

/-- Witness for the C6 theorem: the spec's example classification. -/
theorem beginDrag_classification_witness :
    beginDrag 5 5 ⟨0, 0, 10, 10⟩ (0, 0) (0, 0) = (.nw, (0, 0), (0, 0), ⟨0, 0, 10, 10⟩) :=
  (beginDrag_classification 5 5 ⟨0, 0, 10, 10⟩ (0, 0) (0, 0)).2.2.2.2.2.2

lemma isInsideHandle_of_exact (x y hx hy : ℚ) (h1 : |x - hx| = HANDLE_SIZE / 2)
    (h2 : |y - hy| = HANDLE_SIZE / 2) : isInsideHandle x y hx hy := by
  obtain ⟨a1, a2⟩ := abs_le.mp h1.le
  obtain ⟨b1, b2⟩ := abs_le.mp h2.le
  unfold isInsideHandle
  refine ⟨by linarith, by linarith, by linarith, by linarith⟩

lemma beginDrag_resize_of_handle (x y : ℚ) (c : CropRect) (dragOffset startPoint : ℚ × ℚ)
    (h : isInsideHandle x y c.x c.y ∨ isInsideHandle x y (c.x + c.width) c.y ∨
      isInsideHandle x y c.x (c.y + c.height) ∨
      isInsideHandle x y (c.x + c.width) (c.y + c.height)) :
    (beginDrag x y c dragOffset startPoint).1 = .nw ∨
      (beginDrag x y c dragOffset startPoint).1 = .ne ∨
      (beginDrag x y c dragOffset startPoint).1 = .sw ∨
      (beginDrag x y c dragOffset startPoint).1 = .se := by
  unfold beginDrag
  split_ifs <;> simp_all

/-- Claim C10 (counterexample): point (4,4) on rect {0,0,10,10} is at
horizontal and vertical distance exactly `HANDLE_SIZE/2 = 6` from the
SE corner (10,10) and lies inside the SE hit-zone, yet `beginDrag`
classifies it as NW (the NW zone also contains it and has priority),
not as SE — so a point on a corner's hit-zone boundary is not always
classified as that corner's resize mode. -/
theorem handle_boundary_priority_counterexample :
    |(4 : ℚ) - 10| = HANDLE_SIZE / 2 ∧
    isInsideHandle 4 4 10 10 ∧
    (beginDrag 4 4 ⟨0, 0, 10, 10⟩ (0, 0) (0, 0)).1 = DragMode.nw ∧
    DragMode.nw ≠ DragMode.se := by
  refine ⟨by norm_num [HANDLE_SIZE], ?_, ?_, by simp⟩
  · unfold isInsideHandle HANDLE_SIZE
    norm_num
  · unfold beginDrag
    rw [if_pos (show isInsideHandle 4 4 (⟨0, 0, 10, 10⟩ : CropRect).x
        (⟨0, 0, 10, 10⟩ : CropRect).y by
      unfold isInsideHandle HANDLE_SIZE
      norm_num)]

/-- Claim C10 (amended): the corner hit test is boundary-inclusive — a
point whose horizontal and vertical distances from a corner are each
exactly `HANDLE_SIZE/2` lies inside that corner's hit-zone, and for
every one of the four corners `beginDrag` then yields a corner resize
mode, never move or draw (conjuncts 5–7 state this unconditionally for
the NE, SW and SE corners; conjunct 1 gives the stronger unconditional
`nw` for the NW corner); the mode is that specific corner's resize
mode provided no higher-priority corner (in the order NW, NE, SW, SE)
also contains the point (conjuncts 1–4). -/
theorem handle_boundary_inclusive (x y : ℚ) (c : CropRect) (dragOffset startPoint : ℚ × ℚ) :
    ((|x - c.x| = HANDLE_SIZE / 2 ∧ |y - c.y| = HANDLE_SIZE / 2) →
      (beginDrag x y c dragOffset startPoint).1 = .nw) ∧
    ((|x - (c.x + c.width)| = HANDLE_SIZE / 2 ∧ |y - c.y| = HANDLE_SIZE / 2 ∧
        ¬ isInsideHandle x y c.x c.y) →
      (beginDrag x y c dragOffset startPoint).1 = .ne) ∧
    ((|x - c.x| = HANDLE_SIZE / 2 ∧ |y - (c.y + c.height)| = HANDLE_SIZE / 2 ∧
        ¬ isInsideHandle x y c.x c.y ∧ ¬ isInsideHandle x y (c.x + c.width) c.y) →
      (beginDrag x y c dragOffset startPoint).1 = .sw) ∧
    ((|x - (c.x + c.width)| = HANDLE_SIZE / 2 ∧ |y - (c.y + c.height)| = HANDLE_SIZE / 2 ∧
        ¬ isInsideHandle x y c.x c.y ∧ ¬ isInsideHandle x y (c.x + c.width) c.y ∧
        ¬ isInsideHandle x y c.x (c.y + c.height)) →
      (beginDrag x y c dragOffset startPoint).1 = .se) ∧
    ((|x - (c.x + c.width)| = HANDLE_SIZE / 2 ∧ |y - c.y| = HANDLE_SIZE / 2) →
      ((beginDrag x y c dragOffset startPoint).1 = .nw ∨
        (beginDrag x y c dragOffset startPoint).1 = .ne ∨
        (beginDrag x y c dragOffset startPoint).1 = .sw ∨
        (beginDrag x y c dragOffset startPoint).1 = .se)) ∧
    ((|x - c.x| = HANDLE_SIZE / 2 ∧ |y - (c.y + c.height)| = HANDLE_SIZE / 2) →
      ((beginDrag x y c dragOffset startPoint).1 = .nw ∨
        (beginDrag x y c dragOffset startPoint).1 = .ne ∨
        (beginDrag x y c dragOffset startPoint).1 = .sw ∨
        (beginDrag x y c dragOffset startPoint).1 = .se)) ∧
    ((|x - (c.x + c.width)| = HANDLE_SIZE / 2 ∧ |y - (c.y + c.height)| = HANDLE_SIZE / 2) →
      ((beginDrag x y c dragOffset startPoint).1 = .nw ∨
        (beginDrag x y c dragOffset startPoint).1 = .ne ∨
        (beginDrag x y c dragOffset startPoint).1 = .sw ∨
        (beginDrag x y c dragOffset startPoint).1 = .se)) := by
  refine ⟨?_, ?_, ?_, ?_, ?_, ?_, ?_⟩
  · rintro ⟨h1, h2⟩
    unfold beginDrag
    rw [if_pos (isInsideHandle_of_exact x y c.x c.y h1 h2)]
  · rintro ⟨h1, h2, hnw⟩
    unfold beginDrag
    rw [if_neg hnw, if_pos (isInsideHandle_of_exact x y (c.x + c.width) c.y h1 h2)]
  · rintro ⟨h1, h2, hnw, hne⟩
    unfold beginDrag
    rw [if_neg hnw, if_neg hne,
      if_pos (isInsideHandle_of_exact x y c.x (c.y + c.height) h1 h2)]
  · rintro ⟨h1, h2, hnw, hne, hsw⟩
    unfold beginDrag
    rw [if_neg hnw, if_neg hne, if_neg hsw,
      if_pos (isInsideHandle_of_exact x y (c.x + c.width) (c.y + c.height) h1 h2)]
  · rintro ⟨h1, h2⟩
    exact beginDrag_resize_of_handle x y c dragOffset startPoint
      (Or.inr (Or.inl (isInsideHandle_of_exact x y (c.x + c.width) c.y h1 h2)))
  · rintro ⟨h1, h2⟩
    exact beginDrag_resize_of_handle x y c dragOffset startPoint
      (Or.inr (Or.inr (Or.inl (isInsideHandle_of_exact x y c.x (c.y + c.height) h1 h2))))
  · rintro ⟨h1, h2⟩
    exact beginDrag_resize_of_handle x y c dragOffset startPoint
      (Or.inr (Or.inr (Or.inr
        (isInsideHandle_of_exact x y (c.x + c.width) (c.y + c.height) h1 h2))))

/-- Witness for the amended C10 theorem: point (6,6) is on the
boundary of the NW hit-zone of rect {0,0,100,100} and is classified
NW. -/
theorem handle_boundary_inclusive_witness :
    (beginDrag 6 6 ⟨0, 0, 100, 100⟩ (0, 0) (0, 0)).1 = .nw :=
  (handle_boundary_inclusive 6 6 ⟨0, 0, 100, 100⟩ (0, 0) (0, 0)).1
    ⟨by norm_num [HANDLE_SIZE], by norm_num [HANDLE_SIZE]⟩

/-! ### Claim C8: applying the crop -/

/-- Claim C8: with a loaded processed image, `handleApplyCrop` fails
with `InvalidCropError` exactly when the crop rectangle has zero width
or zero height; on failure both the processed image and the crop
rectangle are left unchanged, and for a rectangle with both dimensions
nonzero no error is raised. -/
theorem applyCrop_error_iff (α : Type) (extract : CropRect → α → α) (img : α)
    (crop : CropRect) :
    ((handleApplyCrop extract (some img) crop).1 = some .invalidCrop ↔
      (crop.width = 0 ∨ crop.height = 0)) ∧
    ((crop.width = 0 ∨ crop.height = 0) →
      handleApplyCrop extract (some img) crop = (some .invalidCrop, some img, crop)) ∧
    (crop.width ≠ 0 → crop.height ≠ 0 →
      (handleApplyCrop extract (some img) crop).1 = none) := by
  by_cases h : crop.width = 0 ∨ crop.height = 0
  · have heq : handleApplyCrop extract (some img) crop = (some .invalidCrop, some img, crop) := by
      unfold handleApplyCrop
      rw [if_pos (Or.inr h)]
    refine ⟨⟨fun _ => h, fun _ => by rw [heq]⟩, fun _ => heq, fun hw hh => ?_⟩
    rcases h with h | h
    · exact absurd h hw
    · exact absurd h hh
  · have heq : handleApplyCrop extract (some img) crop =
        (none, some (extract crop img), ⟨0, 0, 0, 0⟩) := by
      unfold handleApplyCrop
      rw [if_neg ?_]
      · rfl
      · rintro (hc | hc | hc)
        · simp at hc
        · exact h (Or.inl hc)
        · exact h (Or.inr hc)
    refine ⟨⟨fun hc => ?_, fun hc => absurd hc h⟩, fun hc => absurd hc h, fun _ _ => by rw [heq]⟩
    rw [heq] at hc
    exact absurd hc (by simp)

/-- Witness for the C8 theorem at the spec's example rectangle
{x:0, y:0, w:0, h:5}. -/
theorem applyCrop_error_iff_witness :
    ((handleApplyCrop (fun _ n => n) (some (0 : ℕ)) ⟨0, 0, 0, 5⟩).1 = some .invalidCrop ↔
      ((⟨0, 0, 0, 5⟩ : CropRect).width = 0 ∨ (⟨0, 0, 0, 5⟩ : CropRect).height = 0)) ∧
    (((⟨0, 0, 0, 5⟩ : CropRect).width = 0 ∨ (⟨0, 0, 0, 5⟩ : CropRect).height = 0) →
      handleApplyCrop (fun _ n => n) (some (0 : ℕ)) ⟨0, 0, 0, 5⟩ =
        (some .invalidCrop, some 0, ⟨0, 0, 0, 5⟩)) ∧
    ((⟨0, 0, 0, 5⟩ : CropRect).width ≠ 0 → (⟨0, 0, 0, 5⟩ : CropRect).height ≠ 0 →
      (handleApplyCrop (fun _ n => n) (some (0 : ℕ)) ⟨0, 0, 0, 5⟩).1 = none) :=
  applyCrop_error_iff ℕ (fun _ n => n) 0 ⟨0, 0, 0, 5⟩

end SignatureRefiner
